import Mathlib

/-!
Verification of the Zion repository fragment: the HotStuff basic-core event
handling (`consensus/hotstuff/basic/core/handler.go`, with the error table of
the unnamed `errors.go` fragment) and the header-sync parameter codecs
(`contracts/native/header_sync/common/param.go`).

The Go code is shallowly embedded: the core's mutable receiver `c *core`
becomes an explicit `CoreState` value threaded through the handlers, Go `error`
results become `Option CoreErr`, and the byte-stream sink/source of the
polynetwork codec library become functions on `List Nat` (one `Nat` per byte).

Functions of the repository that are called from `handler.go` but whose own
source is not part of the provided fragment (`startNewRound`, `storeBacklog`,
`stopTimer`, the seven per-code message handlers, `handleRequest`,
`handleFinalCommitted`, and message decoding `FromPayload`) are modelled from
the specification; each such definition carries a doc comment saying so.
Where a theorem does not depend on the behaviour of the missing handlers at
all, the handler suite is taken as a parameter (`Handlers`), so the theorem
holds for every possible implementation of the missing code.
-/

namespace Zion

/-- Protocol phases of the round state machine (spec section 3: Phase is one of
NewView, Prepare, PreCommit, Commit, Decide). -/
inductive Phase
  | newView
  | prepare
  | preCommit
  | commit
  | decide
deriving DecidableEq

/-- Consensus error values, after the `errors.go` fragment
(`src/unnamed/part_000`).  Only the errors reachable from the embedded code
are listed. -/
inductive CoreErr
  | errInconsistentVote
  | errFutureMessage
  | errOldMessage
  | errOldVote
  | errInvalidMessage
  | errInvalidSigner
  | errNotFromProposer
  | errInvalidDigest
deriving DecidableEq

/-- Modelled from the spec: a validator identity (`hotstuff.Validator`, not
under `src/`).  The spec's ValidatorSet contract only needs lookup by address
(`GetByAddress(addr) -> (index, Validator|nil)`), so a validator is reduced to
its address. -/
structure Validator where
  addr : Nat
deriving DecidableEq

/-- Modelled from the spec (section 6): the wire message envelope
`{Code (phase tag), Round, payload, signer signature}`.  The concrete
`message` struct of `types.go` is not under `src/`; `Address` is the signer
address recovered during signature validation, `Msg` the opaque phase-specific
payload. -/
structure Message where
  Code : Nat
  Round : Nat
  Address : Nat
  Msg : List Nat
deriving DecidableEq

/-- Message type tag for NEWVIEW messages.  The concrete numeric values of the
`MsgType` constants (`types.go`) are not under `src/`; only their distinctness
is used. -/
def MsgTypeNewView : Nat := 1

/-- Message type tag for PREPARE messages. -/
def MsgTypePrepare : Nat := 2

/-- Message type tag for PREPARE_VOTE messages. -/
def MsgTypePrepareVote : Nat := 3

/-- Message type tag for PRECOMMIT messages. -/
def MsgTypePreCommit : Nat := 4

/-- Message type tag for PRECOMMIT_VOTE messages. -/
def MsgTypePreCommitVote : Nat := 5

/-- Message type tag for COMMIT messages. -/
def MsgTypeCommit : Nat := 6

/-- Message type tag for COMMIT_VOTE messages. -/
def MsgTypeCommitVote : Nat := 7

/-- The list of the seven dispatched message codes, in the order of the
`switch` in `handleCheckedMsg`. -/
def knownMsgCodes : List Nat :=
  [MsgTypeNewView, MsgTypePrepare, MsgTypePrepareVote, MsgTypePreCommit,
   MsgTypePreCommitVote, MsgTypeCommit, MsgTypeCommitVote]

/-- The state owned by the core (`c *core`).  `currentRound` and
`currentPhase` are the round/phase of the round-state machine (spec section
3); `backlog` holds deferred `(message, resolved signer)` pairs; `tally` is
the vote aggregator's record of accepted votes as `(code, signer address)`
pairs; the three booleans `events`, `timeoutSub` and `finalCommittedSub`
record whether the corresponding subscription of `subscribeEvents` is live;
`timerActive` is the round timer of the timeout manager. -/
structure CoreState where
  currentRound : Nat
  currentPhase : Phase
  valSet : List Validator
  backlog : List (Message × Validator)
  tally : List (Nat × Nat)
  pendingRequest : Option Nat
  timerActive : Bool
  events : Bool
  timeoutSub : Bool
  finalCommittedSub : Bool
deriving DecidableEq

/-- Modelled from the spec: `ValidatorSet.GetByAddress` (the ValidatorSet
implementation is not under `src/`): resolve an address to a validator of the
set, `none` when the address does not belong to the set. -/
def getByAddress (valSet : List Validator) (a : Nat) : Option Validator :=
  valSet.find? (fun v => v.addr == a)

/-- Modelled from the spec: `storeBacklog` (`backlog.go`, not under `src/`)
inserts a `(message, resolved signer)` pair into the Backlog holding area. -/
def storeBacklog (s : CoreState) (msg : Message) (src : Validator) : CoreState :=
  { s with backlog := s.backlog ++ [(msg, src)] }

/-- Modelled from the spec: `startNewRound` (`round.go`, not under `src/`).
Per the spec (section 4.1), starting a new round sets `currentRound` to the
given round number, restarts at phase `NewView`, cancels any outstanding
phase state (the vote tally) for the expired round, and (section 4.4) stops
any prior timer before starting the new round's timer. -/
def startNewRound (s : CoreState) (round : Nat) : CoreState :=
  { s with currentRound := round, currentPhase := Phase.newView,
           tally := [], timerActive := true }

/-- Modelled from the spec (section 4.4): `stopTimer` stops the round timer;
idempotent and safe to call with no active timer. -/
def stopTimer (s : CoreState) : CoreState :=
  { s with timerActive := false }

/-- Embedding of `subscribeEvents` (handler.go): subscribe the general events
subscription, the timeout subscription and the finalCommitted subscription. -/
def subscribeEvents (s : CoreState) : CoreState :=
  { s with events := true, timeoutSub := true, finalCommittedSub := true }

/-- Embedding of `unsubscribeEvents` (handler.go): unsubscribe all three
subscriptions. -/
def unsubscribeEvents (s : CoreState) : CoreState :=
  { s with events := false, timeoutSub := false, finalCommittedSub := false }

/-- Embedding of `core.Stop` (handler.go): stop the timer, unsubscribe all
events, return `nil`. -/
def Stop (s : CoreState) : CoreState × Option CoreErr :=
  (unsubscribeEvents (stopTimer s), none)

/-- A proposal request (`hotstuff.Request`); the proposal itself is opaque to
the embedded logic. -/
structure Request where
  Proposal : Nat
deriving DecidableEq

/-- The sub-handlers called from `handler.go` whose sources are not part of
the provided fragment.  `handler.go` is embedded parametrically in this
suite, so theorems that do not depend on the missing code quantify over it. -/
structure Handlers where
  handleNewView : CoreState → Message → Validator → CoreState × Option CoreErr
  handlePrepare : CoreState → Message → Validator → CoreState × Option CoreErr
  handlePrepareVote : CoreState → Message → Validator → CoreState × Option CoreErr
  handlePreCommit : CoreState → Message → Validator → CoreState × Option CoreErr
  handlePreCommitVote : CoreState → Message → Validator → CoreState × Option CoreErr
  handleCommit : CoreState → Message → Validator → CoreState × Option CoreErr
  handleCommitVote : CoreState → Message → Validator → CoreState × Option CoreErr
  handleRequest : CoreState → Request → CoreState × Option CoreErr
  handleFinalCommitted : CoreState → CoreState

/-- Modelled from the spec: an incoming wire payload as seen by
`message.FromPayload` (`types.go`, not under `src/`), which decodes the
payload and checks its signature.  A payload either fails decoding or
signature validation with some error, or yields a message whose `Address`
is the validated signer. -/
inductive Payload
  | malformed (e : CoreErr)
  | wellFormed (m : Message)
deriving DecidableEq

/-- Modelled from the spec: `message.FromPayload` decodes a payload and
checks its signature, returning the decoded message or the decode/validation
error. -/
def FromPayload : Payload → Except CoreErr Message
  | Payload.malformed e => Except.error e
  | Payload.wellFormed m => Except.ok m

/-- Embedding of the `testBacklog` closure inside `handleCheckedMsg`
(handler.go): given a handler's result, if the error is `errFutureMessage`
the message and its signer are stored in the backlog; the error is returned
unchanged either way. -/
def testBacklog (msg : Message) (src : Validator) :
    CoreState × Option CoreErr → CoreState × Option CoreErr
  | (s, err) =>
    if err = some CoreErr.errFutureMessage then (storeBacklog s msg src, err)
    else (s, err)

/-- Embedding of `handleCheckedMsg` (handler.go), parametric in the seven
per-code handlers: dispatch on `msg.Code` through `testBacklog`; any other
code returns `errInvalidMessage`. -/
def handleCheckedMsgW (H : Handlers) (s : CoreState) (msg : Message)
    (src : Validator) : CoreState × Option CoreErr :=
  if msg.Code = MsgTypeNewView then testBacklog msg src (H.handleNewView s msg src)
  else if msg.Code = MsgTypePrepare then testBacklog msg src (H.handlePrepare s msg src)
  else if msg.Code = MsgTypePrepareVote then testBacklog msg src (H.handlePrepareVote s msg src)
  else if msg.Code = MsgTypePreCommit then testBacklog msg src (H.handlePreCommit s msg src)
  else if msg.Code = MsgTypePreCommitVote then testBacklog msg src (H.handlePreCommitVote s msg src)
  else if msg.Code = MsgTypeCommit then testBacklog msg src (H.handleCommit s msg src)
  else if msg.Code = MsgTypeCommitVote then testBacklog msg src (H.handleCommitVote s msg src)
  else (s, some CoreErr.errInvalidMessage)

/-- Embedding of `handleMsg` (handler.go): decode the payload and check its
signature (returning the error on failure), resolve the sender against the
validator set (`errInvalidSigner` when it does not resolve), then hand the
checked message to `handleCheckedMsg`. -/
def handleMsgW (H : Handlers) (s : CoreState) (payload : Payload) :
    CoreState × Option CoreErr :=
  match FromPayload payload with
  | Except.error e => (s, some e)
  | Except.ok msg =>
    match getByAddress s.valSet msg.Address with
    | none => (s, some CoreErr.errInvalidSigner)
    | some src => handleCheckedMsgW H s msg src

/-- Embedding of `handleTimeoutMsg` (handler.go): start a new round at
`current.Round() + 1`. -/
def handleTimeoutMsg (s : CoreState) : CoreState :=
  startNewRound s (s.currentRound + 1)

/-- The events consumed by the dispatch loop `handleEvents` (handler.go):
`hotstuff.RequestEvent`, `hotstuff.MessageEvent` and the internal
`backlogEvent` arrive on the general events subscription; `timeoutEvent` on
the timeout subscription; `hotstuff.FinalCommittedEvent` on the
finalCommitted subscription. -/
inductive CoreEvent
  | requestEvent (proposal : Nat)
  | messageEvent (payload : Payload)
  | backlogEvent (msg : Message) (src : Validator)
  | timeoutEvent
  | finalCommittedEvent
deriving DecidableEq

/-- Embedding of one iteration of the dispatch loop `handleEvents`
(handler.go) on a delivered event: each arm invokes the corresponding handler
and discards its error (`_ = c.handleRequest(...)`, `_ = c.handleMsg(...)`,
`_ = c.handleCheckedMsg(...)`), so the loop step is a total function on the
state. -/
def handleEventW (H : Handlers) (s : CoreState) : CoreEvent → CoreState
  | CoreEvent.requestEvent proposal => (H.handleRequest s { Proposal := proposal }).1
  | CoreEvent.messageEvent payload => (handleMsgW H s payload).1
  | CoreEvent.backlogEvent msg src => (handleCheckedMsgW H s msg src).1
  | CoreEvent.timeoutEvent => handleTimeoutMsg s
  | CoreEvent.finalCommittedEvent => H.handleFinalCommitted s

/-- What the dispatch loop observes on one `select`: either a delivered event,
or a closed channel (`ok == false` on any of the three subscriptions), upon
which the loop returns. -/
inductive LoopInput
  | arrival (e : CoreEvent)
  | closed
deriving DecidableEq

/-- Whether a loop input is a channel-close notification. -/
def isClosed : LoopInput → Bool
  | LoopInput.arrival _ => false
  | LoopInput.closed => true

/-- Embedding of the dispatch loop `handleEvents` (handler.go) over a finite
observed sequence of loop inputs: events are processed in order, each handler
error is discarded, and the loop returns at the first closed channel.  The
result is the final state together with the number of events processed. -/
def handleEventsW (H : Handlers) (s : CoreState) : List LoopInput → CoreState × Nat
  | [] => (s, 0)
  | LoopInput.closed :: _ => (s, 0)
  | LoopInput.arrival e :: rest =>
    let r := handleEventsW H (handleEventW H s e) rest
    (r.1, r.2 + 1)

/-- The events carried by a list of loop inputs. -/
def arrivalEvents (l : List LoopInput) : List CoreEvent :=
  l.filterMap (fun i => match i with
    | LoopInput.arrival e => some e
    | LoopInput.closed => none)

/-- Folding the dispatch-loop step over a list of events. -/
def processEventsW (H : Handlers) (s : CoreState) (es : List CoreEvent) : CoreState :=
  es.foldl (handleEventW H) s

/-- Modelled from the spec (section 4.1): the common round classification
performed by each per-code handler — a message for a round ahead of
`currentRound` is a future message, one for a round behind it is old. -/
def checkMessage (s : CoreState) (msg : Message) : Option CoreErr :=
  if s.currentRound < msg.Round then some CoreErr.errFutureMessage
  else if msg.Round < s.currentRound then some CoreErr.errOldMessage
  else none

/-- Modelled from the spec (section 4.1): a proposal-kind handler (NewView,
Prepare, PreCommit, Commit) classifies the message round, and on a
current-round message performs its phase-specific processing, which advances
the local phase and never modifies `currentRound`. -/
def acceptProposalMsg (ph : Phase) (s : CoreState) (msg : Message)
    (_ : Validator) : CoreState × Option CoreErr :=
  match checkMessage s msg with
  | some e => (s, some e)
  | none => ({ s with currentPhase := ph }, none)

/-- Modelled from the spec (section 4.1): a vote-kind handler (PrepareVote,
PreCommitVote, CommitVote) classifies the message round (an old vote is
`errOldVote`), and on a current-round vote records it with the aggregator;
it never modifies `currentRound`. -/
def acceptVoteMsg (s : CoreState) (msg : Message) (src : Validator) :
    CoreState × Option CoreErr :=
  if s.currentRound < msg.Round then (s, some CoreErr.errFutureMessage)
  else if msg.Round < s.currentRound then (s, some CoreErr.errOldVote)
  else ({ s with tally := s.tally ++ [(msg.Code, src.addr)] }, none)

/-- Modelled from the spec: the concrete suite of sub-handlers whose sources
are not part of the provided fragment.  `handleRequest` records the pending
proposal (spec section 4.1: the request event is recorded regardless of
role); `handleFinalCommitted` starts the next round (`currentRound + 1`)
fresh at NewView (spec section 4.1, FinalCommittedEvent). -/
def specHandlers : Handlers where
  handleNewView := acceptProposalMsg Phase.newView
  handlePrepare := acceptProposalMsg Phase.prepare
  handlePrepareVote := acceptVoteMsg
  handlePreCommit := acceptProposalMsg Phase.preCommit
  handlePreCommitVote := acceptVoteMsg
  handleCommit := acceptProposalMsg Phase.commit
  handleCommitVote := acceptVoteMsg
  handleRequest := fun s req => ({ s with pendingRequest := some req.Proposal }, none)
  handleFinalCommitted := fun s => startNewRound s (s.currentRound + 1)

/-- `handleCheckedMsg` with the spec-modelled sub-handlers. -/
def handleCheckedMsg (s : CoreState) (msg : Message) (src : Validator) :
    CoreState × Option CoreErr :=
  handleCheckedMsgW specHandlers s msg src

/-- `handleMsg` with the spec-modelled sub-handlers. -/
def handleMsg (s : CoreState) (payload : Payload) : CoreState × Option CoreErr :=
  handleMsgW specHandlers s payload

/-- One dispatch-loop step with the spec-modelled sub-handlers. -/
def handleEvent (s : CoreState) (e : CoreEvent) : CoreState :=
  handleEventW specHandlers s e

/-- Processing a finite sequence of delivered events with the spec-modelled
sub-handlers. -/
def processEvents (s : CoreState) (es : List CoreEvent) : CoreState :=
  es.foldl handleEvent s

/-!
Byte-stream codec model.  `param.go` serializes through the external
polynetwork `ZeroCopySink` and deserializes through `ZeroCopySource`.  A byte
stream is a `List Nat`, one entry per byte; a sink operation produces the
bytes it appends; a source operation consumes a prefix of the remaining
stream, returning `none` exactly when the library reports `eof`.
-/

/-- Little-endian encoding of a value on `n` bytes (the library's
`binary.LittleEndian.PutUintNN`, with values beyond `n` bytes truncated just
as the Go integer conversions do). -/
def putUintLE : Nat → Nat → List Nat
  | 0, _ => []
  | n + 1, v => v % 256 :: putUintLE n (v / 256)

/-- Little-endian decoding of `n` bytes from the stream; `none` when fewer
than `n` bytes remain (the source's `eof`). -/
def getUintLE : Nat → List Nat → Option (Nat × List Nat)
  | 0, bs => some (0, bs)
  | _ + 1, [] => none
  | n + 1, b :: bs =>
    match getUintLE n bs with
    | none => none
    | some (v, rest) => some (b + 256 * v, rest)

/-- Reading exactly `n` raw bytes from the stream (the source's `NextBytes`);
`none` when fewer than `n` bytes remain. -/
def takeExact : Nat → List Nat → Option (List Nat × List Nat)
  | 0, bs => some ([], bs)
  | _ + 1, [] => none
  | n + 1, b :: bs =>
    match takeExact n bs with
    | none => none
    | some (xs, rest) => some (b :: xs, rest)

/-- Model of the external `ZeroCopySink.WriteUint64`: eight bytes,
little-endian. -/
def WriteUint64 (v : Nat) : List Nat := putUintLE 8 v

/-- Model of the external `ZeroCopySink.WriteAddress`: the twenty raw bytes
of the address. -/
def WriteAddress (a : List Nat) : List Nat := a

/-- Model of the external `ZeroCopySink.WriteVarUint`: one-byte values below
`0xFD` directly; otherwise a marker byte `0xFD`/`0xFE`/`0xFF` followed by the
value on two / four / eight bytes little-endian. -/
def putVarUint (v : Nat) : List Nat :=
  if v < 0xFD then [v]
  else if v ≤ 0xFFFF then 0xFD :: putUintLE 2 v
  else if v ≤ 0xFFFFFFFF then 0xFE :: putUintLE 4 v
  else 0xFF :: putUintLE 8 v

/-- Model of the external `ZeroCopySink.WriteVarBytes`: the var-uint length
followed by the raw bytes. -/
def WriteVarBytes (data : List Nat) : List Nat :=
  putVarUint data.length ++ data

/-- Model of the external `ZeroCopySource.NextUint64`. -/
def NextUint64 (bs : List Nat) : Option (Nat × List Nat) := getUintLE 8 bs

/-- Model of the external `ZeroCopySource.NextAddress`: twenty raw bytes. -/
def NextAddress (bs : List Nat) : Option (List Nat × List Nat) := takeExact 20 bs

/-- Model of the external `ZeroCopySource.NextVarUint`: the decoded value,
the library's `irregular` flag (the value was encoded non-canonically), and
the remaining stream. -/
def NextVarUint (bs : List Nat) : Option (Nat × Bool × List Nat) :=
  match bs with
  | [] => none
  | fb :: rest =>
    if fb = 0xFD then
      match getUintLE 2 rest with
      | none => none
      | some (v, r) => some (v, decide (v < 0xFD), r)
    else if fb = 0xFE then
      match getUintLE 4 rest with
      | none => none
      | some (v, r) => some (v, decide (v ≤ 0xFFFF), r)
    else if fb = 0xFF then
      match getUintLE 8 rest with
      | none => none
      | some (v, r) => some (v, decide (v ≤ 0xFFFFFFFF), r)
    else some (fb, false, rest)

/-- Model of the external `ZeroCopySource.NextVarBytes`: read the var-uint
count (an irregular encoding is reported as `eof`), then that many raw
bytes. -/
def NextVarBytes (bs : List Nat) : Option (List Nat × List Nat) :=
  match NextVarUint bs with
  | none => none
  | some (n, irregular, rest) =>
    if irregular then none else takeExact n rest

/-- The serialization of a list of byte slices, one `WriteVarBytes` each, in
order (the `for _, v := range` loops of `param.go`). -/
def writeVarBytesList : List (List Nat) → List Nat
  | [] => []
  | x :: t => WriteVarBytes x ++ writeVarBytesList t

/-- Reading `n` consecutive var-bytes slices (the deserialization loops of
`param.go`); fails as soon as one read fails. -/
def readVarBytesN : Nat → List Nat → Option (List (List Nat) × List Nat)
  | 0, bs => some ([], bs)
  | n + 1, bs =>
    match NextVarBytes bs with
    | none => none
    | some (x, rest) =>
      match readVarBytesN n rest with
      | none => none
      | some (xs, r) => some (x :: xs, r)

/-- `SyncGenesisHeaderParam` (param.go).  `ChainID` models the Go `uint64`,
`GenesisHeader` the byte slice. -/
structure SyncGenesisHeaderParam where
  ChainID : Nat
  GenesisHeader : List Nat
deriving DecidableEq

/-- Embedding of `SyncGenesisHeaderParam.Serialization` (param.go): write the
chain id as uint64, then the genesis header as var-bytes. -/
def SyncGenesisHeaderParam.Serialization (this : SyncGenesisHeaderParam) :
    List Nat :=
  WriteUint64 this.ChainID ++ WriteVarBytes this.GenesisHeader

/-- Embedding of `SyncGenesisHeaderParam.Deserialization` (param.go): read
the chain id, then the genesis header, and assign the receiver's fields only
after both reads succeeded; on failure the receiver is returned unchanged
together with the error message. -/
def SyncGenesisHeaderParam.Deserialization (this : SyncGenesisHeaderParam)
    (source : List Nat) : SyncGenesisHeaderParam × Option String :=
  match NextUint64 source with
  | none => (this, some "SyncGenesisHeaderParam deserialize chainID error")
  | some (chainID, s1) =>
    match NextVarBytes s1 with
    | none => (this, some "utils.DecodeVarBytes, deserialize genesisHeader count error")
    | some (genesisHeader, _) =>
      ({ ChainID := chainID, GenesisHeader := genesisHeader }, none)

/-- `SyncBlockHeaderParam` (param.go).  `Address` models the twenty-byte
`common.Address`. -/
structure SyncBlockHeaderParam where
  ChainID : Nat
  Address : List Nat
  Headers : List (List Nat)
deriving DecidableEq

/-- Embedding of `SyncBlockHeaderParam.Serialization` (param.go): chain id,
address, header count as uint64, then each header as var-bytes. -/
def SyncBlockHeaderParam.Serialization (this : SyncBlockHeaderParam) :
    List Nat :=
  WriteUint64 this.ChainID ++ WriteAddress this.Address ++
    WriteUint64 this.Headers.length ++ writeVarBytesList this.Headers

/-- Embedding of `SyncBlockHeaderParam.Deserialization` (param.go): read the
chain id, the address, the header count, then that many headers; fields are
assigned only after every read succeeded, so on failure the receiver is
returned unchanged together with the error message. -/
def SyncBlockHeaderParam.Deserialization (this : SyncBlockHeaderParam)
    (source : List Nat) : SyncBlockHeaderParam × Option String :=
  match NextUint64 source with
  | none => (this, some "SyncGenesisHeaderParam deserialize chainID error")
  | some (chainID, s1) =>
    match NextAddress s1 with
    | none => (this, some "utils.DecodeAddress, deserialize address error")
    | some (address, s2) =>
      match NextUint64 s2 with
      | none => (this, some "utils.DecodeVarUint, deserialize header count error")
      | some (n, s3) =>
        match readVarBytesN n s3 with
        | none => (this, some "utils.DecodeVarBytes, deserialize header error")
        | some (headers, _) =>
          ({ ChainID := chainID, Address := address, Headers := headers }, none)

/-- `SyncCrossChainMsgParam` (param.go). -/
structure SyncCrossChainMsgParam where
  ChainID : Nat
  Address : List Nat
  CrossChainMsgs : List (List Nat)
deriving DecidableEq

/-- Embedding of `SyncCrossChainMsgParam.Serialization` (param.go): chain id,
address, message count as uint64, then each cross-chain message as
var-bytes. -/
def SyncCrossChainMsgParam.Serialization (this : SyncCrossChainMsgParam) :
    List Nat :=
  WriteUint64 this.ChainID ++ WriteAddress this.Address ++
    WriteUint64 this.CrossChainMsgs.length ++ writeVarBytesList this.CrossChainMsgs

/-- Embedding of `SyncCrossChainMsgParam.Deserialization` (param.go): read
the chain id, the address, the count, then that many messages; fields are
assigned only after every read succeeded, so on failure the receiver is
returned unchanged together with the error message. -/
def SyncCrossChainMsgParam.Deserialization (this : SyncCrossChainMsgParam)
    (source : List Nat) : SyncCrossChainMsgParam × Option String :=
  match NextUint64 source with
  | none => (this, some "SyncGenesisHeaderParam deserialize chainID error")
  | some (chainID, s1) =>
    match NextAddress s1 with
    | none => (this, some "utils.DecodeAddress, deserialize address error")
    | some (address, s2) =>
      match NextUint64 s2 with
      | none => (this, some "utils.DecodeVarUint, deserialize header count error")
      | some (n, s3) =>
        match readVarBytesN n s3 with
        | none => (this, some "utils.DecodeVarBytes, deserialize crossChainMsg error")
        | some (crossChainMsgs, _) =>
          ({ ChainID := chainID, Address := address,
             CrossChainMsgs := crossChainMsgs }, none)

/-- A concrete core state, used by the witness theorems: round 3, phase
Prepare, two validators with addresses 1 and 2. -/
def wState : CoreState :=
  { currentRound := 3, currentPhase := Phase.prepare,
    valSet := [{ addr := 1 }, { addr := 2 }],
    backlog := [], tally := [], pendingRequest := none, timerActive := true,
    events := true, timeoutSub := true, finalCommittedSub := true }

/-- A concrete PREPARE message for round 5 (two rounds ahead of `wState`),
signed by the validator with address 2; used by the witness theorems. -/
def wFutureMsg : Message :=
  { Code := MsgTypePrepare, Round := 5, Address := 2, Msg := [] }

/-- A concrete current-round (round 3) PREPARE_VOTE message signed by the
validator with address 1; used by the witness theorems. -/
def wVoteMsg : Message :=
  { Code := MsgTypePrepareVote, Round := 3, Address := 1, Msg := [] }

/-- The validator with address 2 of `wState`. -/
def wSrc : Validator := { addr := 2 }

/-- The validator with address 1 of `wState`. -/
def wSrcOne : Validator := { addr := 1 }

/-! Codec lemmas: each source-side read inverts the corresponding sink-side
write, for values within the range the Go types guarantee. -/

/-- Decoding `n` little-endian bytes inverts encoding, for values below
`256 ^ n`. -/
theorem getUintLE_putUintLE (n : Nat) :
    ∀ (v : Nat) (rest : List Nat), v < 256 ^ n →
      getUintLE n (putUintLE n v ++ rest) = some (v, rest) := by
  induction n with
  | zero =>
    intro v rest hv
    obtain rfl : v = 0 := Nat.lt_one_iff.mp (by simpa using hv)
    rfl
  | succ n ih =>
    intro v rest hv
    have hdiv : v / 256 < 256 ^ n := by
      rw [Nat.div_lt_iff_lt_mul (by norm_num : (0:Nat) < 256)]
      calc v < 256 ^ (n + 1) := hv
        _ = 256 ^ n * 256 := pow_succ 256 n
    simp only [putUintLE, List.cons_append, getUintLE, List.append_eq]
    rw [ih (v / 256) rest hdiv]
    show some (v % 256 + 256 * (v / 256), rest) = some (v, rest)
    rw [Nat.mod_add_div]

/-- Reading back exactly the bytes just written returns them unchanged. -/
theorem takeExact_append (xs rest : List Nat) :
    takeExact xs.length (xs ++ rest) = some (xs, rest) := by
  induction xs with
  | nil => rfl
  | cons b t ih =>
    simp only [List.length_cons, List.cons_append, takeExact, List.append_eq]
    rw [ih]

/-- `NextVarUint` inverts `putVarUint` on every `uint64` value, and the
canonical encoding produced by the sink is never flagged irregular. -/
theorem NextVarUint_putVarUint (v : Nat) (rest : List Nat) (hv : v < 2 ^ 64) :
    NextVarUint (putVarUint v ++ rest) = some (v, false, rest) := by
  by_cases h1 : v < 0xFD
  · have h2 : v ≠ 0xFD := by omega
    have h3 : v ≠ 0xFE := by omega
    have h4 : v ≠ 0xFF := by omega
    simp [putVarUint, h1, NextVarUint, h2, h3, h4]
  · by_cases h2 : v ≤ 0xFFFF
    · have hlt : v < 256 ^ 2 := by
        have h256 : (256 : Nat) ^ 2 = 65536 := by norm_num
        omega
      simp only [putVarUint, if_neg h1, if_pos h2, List.cons_append, NextVarUint,
        List.append_eq]
      rw [getUintLE_putUintLE 2 v rest hlt]
      simp [decide_eq_false h1]
    · by_cases h3 : v ≤ 0xFFFFFFFF
      · have hlt : v < 256 ^ 4 := by
          have h256 : (256 : Nat) ^ 4 = 4294967296 := by norm_num
          omega
        simp only [putVarUint, if_neg h1, if_neg h2, if_pos h3, List.cons_append,
          NextVarUint, List.append_eq]
        rw [getUintLE_putUintLE 4 v rest hlt]
        simp [decide_eq_false h2]
      · have hlt : v < 256 ^ 8 := by
          have h256 : (256 : Nat) ^ 8 = 2 ^ 64 := by norm_num
          omega
        simp only [putVarUint, if_neg h1, if_neg h2, if_neg h3, List.cons_append,
          NextVarUint, List.append_eq]
        rw [getUintLE_putUintLE 8 v rest hlt]
        simp [decide_eq_false h3]

/-- `NextVarBytes` inverts `WriteVarBytes` whenever the slice's length fits a
`uint64` (which `len()` guarantees in Go). -/
theorem NextVarBytes_WriteVarBytes (data rest : List Nat)
    (h : data.length < 2 ^ 64) :
    NextVarBytes (WriteVarBytes data ++ rest) = some (data, rest) := by
  unfold WriteVarBytes NextVarBytes
  rw [List.append_assoc, NextVarUint_putVarUint data.length _ h]
  simp [takeExact_append]

/-- Reading back a list of var-bytes slices written in order returns the
list unchanged. -/
theorem readVarBytesN_writeVarBytesList (hs : List (List Nat)) :
    ∀ (rest : List Nat), (∀ x ∈ hs, x.length < 2 ^ 64) →
      readVarBytesN hs.length (writeVarBytesList hs ++ rest) = some (hs, rest) := by
  induction hs with
  | nil => intro rest _; rfl
  | cons x t ih =>
    intro rest hlen
    simp only [writeVarBytesList, List.length_cons, List.append_assoc, readVarBytesN]
    rw [NextVarBytes_WriteVarBytes x _ (hlen x (by simp))]
    show (match readVarBytesN t.length (writeVarBytesList t ++ rest) with
          | none => none
          | some (xs, r) => some (x :: xs, r)) = some (x :: t, rest)
    rw [ih rest (fun y hy => hlen y (by simp [hy]))]

/-- Round trip for `SyncGenesisHeaderParam`: deserializing exactly the bytes
produced by `Serialization` succeeds and reconstructs the value, whatever the
receiver held before. -/
theorem genesisParam_roundtrip (p p0 : SyncGenesisHeaderParam)
    (hcid : p.ChainID < 2 ^ 64) (hlen : p.GenesisHeader.length < 2 ^ 64) :
    p0.Deserialization p.Serialization = (p, none) := by
  have h8 : p.ChainID < 256 ^ 8 := by
    have h256 : (256 : Nat) ^ 8 = 2 ^ 64 := by norm_num
    omega
  have hu : NextUint64 (WriteUint64 p.ChainID ++ WriteVarBytes p.GenesisHeader)
      = some (p.ChainID, WriteVarBytes p.GenesisHeader) :=
    getUintLE_putUintLE 8 p.ChainID _ h8
  have hvb : NextVarBytes (WriteVarBytes p.GenesisHeader)
      = some (p.GenesisHeader, []) := by
    simpa using NextVarBytes_WriteVarBytes p.GenesisHeader [] hlen
  unfold SyncGenesisHeaderParam.Deserialization
  simp only [SyncGenesisHeaderParam.Serialization, hu, hvb]

/-- Round trip for `SyncBlockHeaderParam`. -/
theorem blockParam_roundtrip (p p0 : SyncBlockHeaderParam)
    (hcid : p.ChainID < 2 ^ 64) (haddr : p.Address.length = 20)
    (hn : p.Headers.length < 2 ^ 64)
    (hhdr : ∀ x ∈ p.Headers, x.length < 2 ^ 64) :
    p0.Deserialization p.Serialization = (p, none) := by
  have h256 : (256 : Nat) ^ 8 = 2 ^ 64 := by norm_num
  have h8 : p.ChainID < 256 ^ 8 := by omega
  have h8n : p.Headers.length < 256 ^ 8 := by omega
  have hu1 : NextUint64 (WriteUint64 p.ChainID ++ (p.Address ++
        (WriteUint64 p.Headers.length ++ writeVarBytesList p.Headers)))
      = some (p.ChainID, p.Address ++
        (WriteUint64 p.Headers.length ++ writeVarBytesList p.Headers)) :=
    getUintLE_putUintLE 8 p.ChainID _ h8
  have ha : NextAddress (p.Address ++
        (WriteUint64 p.Headers.length ++ writeVarBytesList p.Headers))
      = some (p.Address, WriteUint64 p.Headers.length ++ writeVarBytesList p.Headers) := by
    show takeExact 20 _ = _
    rw [← haddr]
    exact takeExact_append p.Address _
  have hu2 : NextUint64 (WriteUint64 p.Headers.length ++ writeVarBytesList p.Headers)
      = some (p.Headers.length, writeVarBytesList p.Headers) :=
    getUintLE_putUintLE 8 p.Headers.length _ h8n
  have hr : readVarBytesN p.Headers.length (writeVarBytesList p.Headers)
      = some (p.Headers, []) := by
    simpa using readVarBytesN_writeVarBytesList p.Headers [] hhdr
  unfold SyncBlockHeaderParam.Deserialization
  simp only [SyncBlockHeaderParam.Serialization, WriteAddress, List.append_assoc,
    hu1, ha, hu2, hr]

/-- Round trip for `SyncCrossChainMsgParam`. -/
theorem crossChainParam_roundtrip (p p0 : SyncCrossChainMsgParam)
    (hcid : p.ChainID < 2 ^ 64) (haddr : p.Address.length = 20)
    (hn : p.CrossChainMsgs.length < 2 ^ 64)
    (hmsg : ∀ x ∈ p.CrossChainMsgs, x.length < 2 ^ 64) :
    p0.Deserialization p.Serialization = (p, none) := by
  have h256 : (256 : Nat) ^ 8 = 2 ^ 64 := by norm_num
  have h8 : p.ChainID < 256 ^ 8 := by omega
  have h8n : p.CrossChainMsgs.length < 256 ^ 8 := by omega
  have hu1 : NextUint64 (WriteUint64 p.ChainID ++ (p.Address ++
        (WriteUint64 p.CrossChainMsgs.length ++ writeVarBytesList p.CrossChainMsgs)))
      = some (p.ChainID, p.Address ++
        (WriteUint64 p.CrossChainMsgs.length ++ writeVarBytesList p.CrossChainMsgs)) :=
    getUintLE_putUintLE 8 p.ChainID _ h8
  have ha : NextAddress (p.Address ++
        (WriteUint64 p.CrossChainMsgs.length ++ writeVarBytesList p.CrossChainMsgs))
      = some (p.Address,
          WriteUint64 p.CrossChainMsgs.length ++ writeVarBytesList p.CrossChainMsgs) := by
    show takeExact 20 _ = _
    rw [← haddr]
    exact takeExact_append p.Address _
  have hu2 : NextUint64 (WriteUint64 p.CrossChainMsgs.length ++
        writeVarBytesList p.CrossChainMsgs)
      = some (p.CrossChainMsgs.length, writeVarBytesList p.CrossChainMsgs) :=
    getUintLE_putUintLE 8 p.CrossChainMsgs.length _ h8n
  have hr : readVarBytesN p.CrossChainMsgs.length (writeVarBytesList p.CrossChainMsgs)
      = some (p.CrossChainMsgs, []) := by
    simpa using readVarBytesN_writeVarBytesList p.CrossChainMsgs [] hmsg
  unfold SyncCrossChainMsgParam.Deserialization
  simp only [SyncCrossChainMsgParam.Serialization, WriteAddress, List.append_assoc,
    hu1, ha, hu2, hr]

/-- Atomicity for `SyncGenesisHeaderParam.Deserialization`: a failing run
leaves the receiver unchanged. -/
theorem genesisParam_atomic (p : SyncGenesisHeaderParam)
    (source : List Nat) (h : (p.Deserialization source).2 ≠ none) :
    (p.Deserialization source).1 = p := by
  cases h1 : NextUint64 source with
  | none => simp [SyncGenesisHeaderParam.Deserialization, h1]
  | some a =>
    obtain ⟨cid, s1⟩ := a
    cases h2 : NextVarBytes s1 with
    | none => simp [SyncGenesisHeaderParam.Deserialization, h1, h2]
    | some b =>
      obtain ⟨gh, s2⟩ := b
      exact absurd (by simp [SyncGenesisHeaderParam.Deserialization, h1, h2]) h

/-- Atomicity for `SyncBlockHeaderParam.Deserialization`. -/
theorem blockParam_atomic (p : SyncBlockHeaderParam)
    (source : List Nat) (h : (p.Deserialization source).2 ≠ none) :
    (p.Deserialization source).1 = p := by
  cases h1 : NextUint64 source with
  | none => simp [SyncBlockHeaderParam.Deserialization, h1]
  | some a =>
    obtain ⟨cid, s1⟩ := a
    cases h2 : NextAddress s1 with
    | none => simp [SyncBlockHeaderParam.Deserialization, h1, h2]
    | some b =>
      obtain ⟨addr, s2⟩ := b
      cases h3 : NextUint64 s2 with
      | none => simp [SyncBlockHeaderParam.Deserialization, h1, h2, h3]
      | some c =>
        obtain ⟨n, s3⟩ := c
        cases h4 : readVarBytesN n s3 with
        | none => simp [SyncBlockHeaderParam.Deserialization, h1, h2, h3, h4]
        | some d =>
          obtain ⟨hs, s4⟩ := d
          exact absurd
            (by simp [SyncBlockHeaderParam.Deserialization, h1, h2, h3, h4]) h

/-- Atomicity for `SyncCrossChainMsgParam.Deserialization`. -/
theorem crossChainParam_atomic (p : SyncCrossChainMsgParam)
    (source : List Nat) (h : (p.Deserialization source).2 ≠ none) :
    (p.Deserialization source).1 = p := by
  cases h1 : NextUint64 source with
  | none => simp [SyncCrossChainMsgParam.Deserialization, h1]
  | some a =>
    obtain ⟨cid, s1⟩ := a
    cases h2 : NextAddress s1 with
    | none => simp [SyncCrossChainMsgParam.Deserialization, h1, h2]
    | some b =>
      obtain ⟨addr, s2⟩ := b
      cases h3 : NextUint64 s2 with
      | none => simp [SyncCrossChainMsgParam.Deserialization, h1, h2, h3]
      | some c =>
        obtain ⟨n, s3⟩ := c
        cases h4 : readVarBytesN n s3 with
        | none => simp [SyncCrossChainMsgParam.Deserialization, h1, h2, h3, h4]
        | some d =>
          obtain ⟨ms, s4⟩ := d
          exact absurd
            (by simp [SyncCrossChainMsgParam.Deserialization, h1, h2, h3, h4]) h

/-! Core lemmas: the dispatch plumbing of `handler.go` never changes
`currentRound` except through `startNewRound`. -/

/-- `testBacklog` returns the handler's state except for a possible backlog
insertion, which leaves `currentRound` untouched. -/
theorem testBacklog_currentRound (msg : Message) (src : Validator)
    (r : CoreState × Option CoreErr) :
    ((testBacklog msg src r).1).currentRound = r.1.currentRound := by
  obtain ⟨s, err⟩ := r
  simp only [testBacklog]
  split <;> rfl

/-- The spec-modelled proposal handlers never change `currentRound`. -/
theorem acceptProposalMsg_currentRound (ph : Phase) (s : CoreState)
    (msg : Message) (src : Validator) :
    ((acceptProposalMsg ph s msg src).1).currentRound = s.currentRound := by
  simp only [acceptProposalMsg, checkMessage]
  split <;> rfl

/-- The spec-modelled vote handlers never change `currentRound`. -/
theorem acceptVoteMsg_currentRound (s : CoreState) (msg : Message)
    (src : Validator) :
    ((acceptVoteMsg s msg src).1).currentRound = s.currentRound := by
  simp only [acceptVoteMsg]
  split_ifs <;> rfl

/-- `handleCheckedMsg` (with the spec-modelled handlers) never changes
`currentRound`. -/
theorem handleCheckedMsg_currentRound (s : CoreState) (msg : Message)
    (src : Validator) :
    ((handleCheckedMsg s msg src).1).currentRound = s.currentRound := by
  unfold handleCheckedMsg handleCheckedMsgW
  split_ifs <;>
    simp [specHandlers, testBacklog_currentRound, acceptProposalMsg_currentRound,
      acceptVoteMsg_currentRound]

/-- Every single dispatch-loop step (with the spec-modelled handlers) leaves
`currentRound` unchanged or increases it. -/
theorem handleEvent_round_mono (s : CoreState) (e : CoreEvent) :
    s.currentRound ≤ (handleEvent s e).currentRound := by
  cases e with
  | requestEvent proposal => simp [handleEvent, handleEventW, specHandlers]
  | messageEvent payload =>
    cases payload with
    | malformed e => simp [handleEvent, handleEventW, handleMsgW, FromPayload]
    | wellFormed m =>
      cases hres : getByAddress s.valSet m.Address with
      | none => simp [handleEvent, handleEventW, handleMsgW, FromPayload, hres]
      | some src =>
        have hc := handleCheckedMsg_currentRound s m src
        simp only [handleEvent, handleEventW, handleMsgW, FromPayload, hres]
        exact le_of_eq (hc.symm)
  | backlogEvent msg src =>
    exact le_of_eq ((handleCheckedMsg_currentRound s msg src).symm)
  | timeoutEvent =>
    simp [handleEvent, handleEventW, handleTimeoutMsg, startNewRound]
  | finalCommittedEvent =>
    simp [handleEvent, handleEventW, specHandlers, startNewRound]

/-- Claim C2: for every sequence of events processed by the core,
`currentRound` never decreases — each operation leaves the round unchanged or
increases it. -/
theorem currentRound_monotone (s : CoreState) (es : List CoreEvent) :
    s.currentRound ≤ (processEvents s es).currentRound := by
  induction es generalizing s with
  | nil => exact le_refl _
  | cons e t ih =>
    calc s.currentRound ≤ (handleEvent s e).currentRound :=
          handleEvent_round_mono s e
      _ ≤ (processEvents (handleEvent s e) t).currentRound := ih _

/-- Claim C1: on a timeout event the core unconditionally starts a new round
whose round number is exactly the current round plus one — `handleTimeoutMsg`
computes `currentRound + 1` and passes it to `startNewRound` — regardless of
the phase the core was in when the timeout fired, and the new phase is
NewView. -/
theorem timeout_starts_next_round (s : CoreState) :
    handleTimeoutMsg s = startNewRound s (s.currentRound + 1) ∧
    (handleTimeoutMsg s).currentRound = s.currentRound + 1 ∧
    (handleTimeoutMsg s).currentPhase = Phase.newView :=
  ⟨rfl, rfl, rfl⟩

/-- Claim C3: `handleMsg` first decodes the message and checks its signature,
returning the decode/validation error on failure; then it resolves the sender
against the validator set, and if the address does not resolve it returns
`errInvalidSigner` with the state unchanged — for every possible
implementation of the per-code handlers, so the message is neither dispatched
to any handler nor stored in the backlog. -/
theorem handleMsg_signer_check (H : Handlers) (s : CoreState) (e : CoreErr)
    (m : Message) (h : getByAddress s.valSet m.Address = none) :
    handleMsgW H s (Payload.malformed e) = (s, some e) ∧
    handleMsgW H s (Payload.wellFormed m) = (s, some CoreErr.errInvalidSigner) := by
  exact ⟨rfl, by simp [handleMsgW, FromPayload, h]⟩

/-- Witness for claim C3: in the concrete state `wState`, a malformed payload
is rejected with its decode error and a well-formed message from unknown
address 9 is rejected with `errInvalidSigner`, the state unchanged. -/
theorem handleMsg_signer_check_witness :
    handleMsgW specHandlers wState (Payload.malformed CoreErr.errInvalidDigest)
      = (wState, some CoreErr.errInvalidDigest) ∧
    handleMsgW specHandlers wState
        (Payload.wellFormed { Code := 1, Round := 3, Address := 9, Msg := [] })
      = (wState, some CoreErr.errInvalidSigner) :=
  ⟨(handleMsg_signer_check specHandlers wState CoreErr.errInvalidDigest
      { Code := 1, Round := 3, Address := 9, Msg := [] } (by decide)).1,
   (handleMsg_signer_check specHandlers wState CoreErr.errInvalidDigest
      { Code := 1, Round := 3, Address := 9, Msg := [] } (by decide)).2⟩

/-- Claim C4 (counterexample): at the concrete state `wState` (round 3) and
the future-round message `wFutureMsg` (round 5), `handleCheckedMsg` stores
the message in the backlog but does NOT return without an error: it returns
`errFutureMessage` to its caller, refuting the claim as stated. -/
theorem handleCheckedMsg_future_error_returned :
    (handleCheckedMsg wState wFutureMsg wSrc).2 = some CoreErr.errFutureMessage ∧
    (handleCheckedMsg wState wFutureMsg wSrc).1.backlog = [(wFutureMsg, wSrc)] := by
  constructor <;> decide

/-- Claim C4 (amended): when a per-code handler classifies a message as a
future message, `handleCheckedMsg` stores the message with its resolved
signer in the backlog and returns `errFutureMessage` to its caller; the
dispatch loop discards that error (its step returns only the updated state),
so the deferral is never surfaced as a user-visible failure. -/
theorem handleCheckedMsg_future_deferred (s : CoreState) (msg : Message)
    (src : Validator) (hcode : msg.Code ∈ knownMsgCodes)
    (hfut : s.currentRound < msg.Round) :
    handleCheckedMsg s msg src
      = ({ s with backlog := s.backlog ++ [(msg, src)] },
         some CoreErr.errFutureMessage) ∧
    handleEvent s (CoreEvent.backlogEvent msg src)
      = { s with backlog := s.backlog ++ [(msg, src)] } := by
  have hmain : handleCheckedMsg s msg src
      = ({ s with backlog := s.backlog ++ [(msg, src)] },
         some CoreErr.errFutureMessage) := by
    simp only [knownMsgCodes, List.mem_cons, List.not_mem_nil, or_false] at hcode
    rcases hcode with h | h | h | h | h | h | h <;>
      simp [handleCheckedMsg, handleCheckedMsgW, h, MsgTypeNewView, MsgTypePrepare,
        MsgTypePrepareVote, MsgTypePreCommit, MsgTypePreCommitVote, MsgTypeCommit,
        MsgTypeCommitVote, specHandlers, acceptProposalMsg, acceptVoteMsg,
        checkMessage, testBacklog, storeBacklog, hfut]
  refine ⟨hmain, ?_⟩
  show (handleCheckedMsg s msg src).1 = _
  rw [hmain]

/-- Witness for the amended claim C4: the concrete future message is stored
in `wState`'s backlog and `errFutureMessage` is returned. -/
theorem handleCheckedMsg_future_deferred_witness :
    handleCheckedMsg wState wFutureMsg wSrc
      = ({ wState with backlog := wState.backlog ++ [(wFutureMsg, wSrc)] },
         some CoreErr.errFutureMessage) ∧
    handleEvent wState (CoreEvent.backlogEvent wFutureMsg wSrc)
      = { wState with backlog := wState.backlog ++ [(wFutureMsg, wSrc)] } :=
  handleCheckedMsg_future_deferred wState wFutureMsg wSrc (by decide) (by decide)

/-- Claim C5: a message replayed from the backlog goes through exactly the
same path (`handleCheckedMsg` with the stored message and signer) as a fresh
incoming message that passed decoding and signer resolution, producing the
same outcome — for every possible implementation of the per-code handlers. -/
theorem backlog_replay_same_path (H : Handlers) (s : CoreState)
    (payload : Payload) (msg : Message) (src : Validator)
    (hdec : FromPayload payload = Except.ok msg)
    (hres : getByAddress s.valSet msg.Address = some src) :
    handleMsgW H s payload = handleCheckedMsgW H s msg src ∧
    handleEventW H s (CoreEvent.backlogEvent msg src)
      = (handleCheckedMsgW H s msg src).1 ∧
    handleEventW H s (CoreEvent.messageEvent payload)
      = handleEventW H s (CoreEvent.backlogEvent msg src) := by
  have h1 : handleMsgW H s payload = handleCheckedMsgW H s msg src := by
    cases payload with
    | malformed e => simp [FromPayload] at hdec
    | wellFormed m =>
      obtain rfl : m = msg := by simpa [FromPayload] using hdec
      simp [handleMsgW, FromPayload, hres]
  refine ⟨h1, rfl, ?_⟩
  simp [handleEventW, h1]

/-- Witness for claim C5: the concrete current-round vote `wVoteMsg` produces
the same outcome whether it arrives fresh as a payload or is replayed from
the backlog. -/
theorem backlog_replay_same_path_witness :
    handleMsgW specHandlers wState (Payload.wellFormed wVoteMsg)
      = handleCheckedMsgW specHandlers wState wVoteMsg wSrcOne ∧
    handleEventW specHandlers wState (CoreEvent.backlogEvent wVoteMsg wSrcOne)
      = (handleCheckedMsgW specHandlers wState wVoteMsg wSrcOne).1 ∧
    handleEventW specHandlers wState (CoreEvent.messageEvent (Payload.wellFormed wVoteMsg))
      = handleEventW specHandlers wState (CoreEvent.backlogEvent wVoteMsg wSrcOne) :=
  backlog_replay_same_path specHandlers wState (Payload.wellFormed wVoteMsg)
    wVoteMsg wSrcOne rfl (by decide)

/-- Claim C6: `handleCheckedMsg` dispatches by code to exactly one of the
seven handlers, and for any message whose code is none of the seven it
returns `errInvalidMessage` with the state unchanged, without invoking any
handler (the result is the same for every handler implementation `H`). -/
theorem handleCheckedMsg_dispatch (H : Handlers) (s : CoreState)
    (msg : Message) (src : Validator) :
    (msg.Code = MsgTypeNewView → handleCheckedMsgW H s msg src
        = testBacklog msg src (H.handleNewView s msg src)) ∧
    (msg.Code = MsgTypePrepare → handleCheckedMsgW H s msg src
        = testBacklog msg src (H.handlePrepare s msg src)) ∧
    (msg.Code = MsgTypePrepareVote → handleCheckedMsgW H s msg src
        = testBacklog msg src (H.handlePrepareVote s msg src)) ∧
    (msg.Code = MsgTypePreCommit → handleCheckedMsgW H s msg src
        = testBacklog msg src (H.handlePreCommit s msg src)) ∧
    (msg.Code = MsgTypePreCommitVote → handleCheckedMsgW H s msg src
        = testBacklog msg src (H.handlePreCommitVote s msg src)) ∧
    (msg.Code = MsgTypeCommit → handleCheckedMsgW H s msg src
        = testBacklog msg src (H.handleCommit s msg src)) ∧
    (msg.Code = MsgTypeCommitVote → handleCheckedMsgW H s msg src
        = testBacklog msg src (H.handleCommitVote s msg src)) ∧
    (msg.Code ∉ knownMsgCodes → handleCheckedMsgW H s msg src
        = (s, some CoreErr.errInvalidMessage)) := by
  refine ⟨fun h => ?_, fun h => ?_, fun h => ?_, fun h => ?_, fun h => ?_,
    fun h => ?_, fun h => ?_, fun h => ?_⟩
  · simp [handleCheckedMsgW, h]
  · simp [handleCheckedMsgW, h, MsgTypeNewView, MsgTypePrepare]
  · simp [handleCheckedMsgW, h, MsgTypeNewView, MsgTypePrepare, MsgTypePrepareVote]
  · simp [handleCheckedMsgW, h, MsgTypeNewView, MsgTypePrepare, MsgTypePrepareVote,
      MsgTypePreCommit]
  · simp [handleCheckedMsgW, h, MsgTypeNewView, MsgTypePrepare, MsgTypePrepareVote,
      MsgTypePreCommit, MsgTypePreCommitVote]
  · simp [handleCheckedMsgW, h, MsgTypeNewView, MsgTypePrepare, MsgTypePrepareVote,
      MsgTypePreCommit, MsgTypePreCommitVote, MsgTypeCommit]
  · simp [handleCheckedMsgW, h, MsgTypeNewView, MsgTypePrepare, MsgTypePrepareVote,
      MsgTypePreCommit, MsgTypePreCommitVote, MsgTypeCommit, MsgTypeCommitVote]
  · simp only [knownMsgCodes, List.mem_cons, List.not_mem_nil, or_false, not_or] at h
    obtain ⟨h1, h2, h3, h4, h5, h6, h7⟩ := h
    simp [handleCheckedMsgW, h1, h2, h3, h4, h5, h6, h7]

/-- Witness for claim C6: a message with the unknown code 42 is rejected with
`errInvalidMessage` and the state is unchanged, and the concrete NEWVIEW code
dispatches to the NewView handler. -/
theorem handleCheckedMsg_dispatch_witness :
    handleCheckedMsgW specHandlers wState
        { Code := 42, Round := 3, Address := 1, Msg := [] } wSrcOne
      = (wState, some CoreErr.errInvalidMessage) :=
  (handleCheckedMsg_dispatch specHandlers wState
    { Code := 42, Round := 3, Address := 1, Msg := [] }
    wSrcOne).2.2.2.2.2.2.2 (by decide)

/-- Claim C7: no validation failure from a single event ever stops the
dispatch loop — every handler error is discarded and the loop processes every
event delivered before the first closed channel, exiting only at a closed
channel: over any finite observed input sequence the loop processes exactly
the events of the prefix before the first close, whatever the handlers do. -/
theorem dispatch_loop_processes_all (H : Handlers) (s : CoreState)
    (inputs : List LoopInput) :
    handleEventsW H s inputs
      = (processEventsW H s
           (arrivalEvents (inputs.takeWhile (fun i => !isClosed i))),
         (inputs.takeWhile (fun i => !isClosed i)).length) := by
  induction inputs generalizing s with
  | nil => rfl
  | cons i t ih =>
    cases i with
    | closed => simp [handleEventsW, List.takeWhile_cons, isClosed,
        arrivalEvents, processEventsW]
    | arrival e =>
      simp only [handleEventsW, ih (handleEventW H s e), List.takeWhile_cons,
        isClosed, Bool.not_false, if_pos, List.length_cons]
      simp [arrivalEvents, processEventsW]

/-- Claim C8: `Stop` stops the timer, unsubscribes all three event
subscriptions, and returns nil; and every subscription created by
`subscribeEvents` is unsubscribed by `unsubscribeEvents`. -/
theorem stop_unsubscribes_all (s t : CoreState) :
    Stop s = ({ s with
        timerActive := false, events := false,
        timeoutSub := false, finalCommittedSub := false }, none) ∧
    (Stop s).2 = none ∧
    (unsubscribeEvents (subscribeEvents t)).events = false ∧
    (unsubscribeEvents (subscribeEvents t)).timeoutSub = false ∧
    (unsubscribeEvents (subscribeEvents t)).finalCommittedSub = false :=
  ⟨rfl, rfl, rfl, rfl, rfl⟩

/-- Claim C9: for each of the three header-sync parameter structs,
`Deserialization` is atomic on error — if it returns a non-nil error the
receiver's fields are unmodified. -/
theorem deserialization_atomic (g : SyncGenesisHeaderParam)
    (b : SyncBlockHeaderParam) (c : SyncCrossChainMsgParam)
    (s1 s2 s3 : List Nat) :
    ((g.Deserialization s1).2 ≠ none → (g.Deserialization s1).1 = g) ∧
    ((b.Deserialization s2).2 ≠ none → (b.Deserialization s2).1 = b) ∧
    ((c.Deserialization s3).2 ≠ none → (c.Deserialization s3).1 = c) :=
  ⟨genesisParam_atomic g s1, blockParam_atomic b s2,
   crossChainParam_atomic c s3⟩

/-- Witness for claim C9: deserializing from a too-short source fails and
leaves each concrete receiver unchanged. -/
theorem deserialization_atomic_witness :
    ((SyncGenesisHeaderParam.mk 7 [1, 2]).Deserialization [9]).1
      = SyncGenesisHeaderParam.mk 7 [1, 2] ∧
    ((SyncBlockHeaderParam.mk 7 [1] [[2]]).Deserialization [9]).1
      = SyncBlockHeaderParam.mk 7 [1] [[2]] ∧
    ((SyncCrossChainMsgParam.mk 7 [1] [[2]]).Deserialization [9]).1
      = SyncCrossChainMsgParam.mk 7 [1] [[2]] :=
  ⟨(deserialization_atomic (SyncGenesisHeaderParam.mk 7 [1, 2])
      (SyncBlockHeaderParam.mk 7 [1] [[2]])
      (SyncCrossChainMsgParam.mk 7 [1] [[2]]) [9] [9] [9]).1 (by decide),
   (deserialization_atomic (SyncGenesisHeaderParam.mk 7 [1, 2])
      (SyncBlockHeaderParam.mk 7 [1] [[2]])
      (SyncCrossChainMsgParam.mk 7 [1] [[2]]) [9] [9] [9]).2.1 (by decide),
   (deserialization_atomic (SyncGenesisHeaderParam.mk 7 [1, 2])
      (SyncBlockHeaderParam.mk 7 [1] [[2]])
      (SyncCrossChainMsgParam.mk 7 [1] [[2]]) [9] [9] [9]).2.2 (by decide)⟩

/-- Claim C10: serialization round trip — for each of the three header-sync
parameter structs, deserializing a source containing exactly the bytes of
`Serialization` succeeds (nil error) and reconstructs the same field values,
whatever the receiver held before. -/
theorem serialization_roundtrip
    (g g0 : SyncGenesisHeaderParam) (b b0 : SyncBlockHeaderParam)
    (c c0 : SyncCrossChainMsgParam)
    (hg1 : g.ChainID < 2 ^ 64) (hg2 : g.GenesisHeader.length < 2 ^ 64)
    (hb1 : b.ChainID < 2 ^ 64) (hb2 : b.Address.length = 20)
    (hb3 : b.Headers.length < 2 ^ 64)
    (hb4 : ∀ x ∈ b.Headers, x.length < 2 ^ 64)
    (hc1 : c.ChainID < 2 ^ 64) (hc2 : c.Address.length = 20)
    (hc3 : c.CrossChainMsgs.length < 2 ^ 64)
    (hc4 : ∀ x ∈ c.CrossChainMsgs, x.length < 2 ^ 64) :
    g0.Deserialization g.Serialization = (g, none) ∧
    b0.Deserialization b.Serialization = (b, none) ∧
    c0.Deserialization c.Serialization = (c, none) :=
  ⟨genesisParam_roundtrip g g0 hg1 hg2, blockParam_roundtrip b b0 hb1 hb2 hb3 hb4,
   crossChainParam_roundtrip c c0 hc1 hc2 hc3 hc4⟩

/-- Witness for claim C10: a concrete value of each struct survives the
round trip, whatever the receiver held before. -/
theorem serialization_roundtrip_witness :
    (SyncGenesisHeaderParam.mk 0 []).Deserialization
        (SyncGenesisHeaderParam.mk 5 [1, 2]).Serialization
      = (SyncGenesisHeaderParam.mk 5 [1, 2], none) ∧
    (SyncBlockHeaderParam.mk 0 [] []).Deserialization
        (SyncBlockHeaderParam.mk 6 (List.replicate 20 0) [[2], [3, 4]]).Serialization
      = (SyncBlockHeaderParam.mk 6 (List.replicate 20 0) [[2], [3, 4]], none) ∧
    (SyncCrossChainMsgParam.mk 0 [] []).Deserialization
        (SyncCrossChainMsgParam.mk 8 (List.replicate 20 1) [[9]]).Serialization
      = (SyncCrossChainMsgParam.mk 8 (List.replicate 20 1) [[9]], none) :=
  serialization_roundtrip
    (SyncGenesisHeaderParam.mk 5 [1, 2]) (SyncGenesisHeaderParam.mk 0 [])
    (SyncBlockHeaderParam.mk 6 (List.replicate 20 0) [[2], [3, 4]])
    (SyncBlockHeaderParam.mk 0 [] [])
    (SyncCrossChainMsgParam.mk 8 (List.replicate 20 1) [[9]])
    (SyncCrossChainMsgParam.mk 0 [] [])
    (by decide) (by decide) (by decide) (by decide) (by decide) (by decide)
    (by decide) (by decide) (by decide) (by decide)

end Zion
